import Mathlib

/-!
Verification development for the request-lifecycle core of the
LangGraph-Gold-E-Mail-Agent frontend (client/src).  The definitions below are
a shallow embedding of:

  * client/src/utils/textProcessing.ts   (removeThinkTags,
    stripMarkdownCodeBlocks, parseJsonWrapper)
  * client/src/hooks/useEmailGeneration.ts (handleFileChange, handleClear,
    startProgressTracking, handleGenerate) as an event-trace semantics over
    the single-threaded browser event loop
  * client/src/components/CanvasFlow.tsx  (the two useEffect blocks driving
    the staged reveal) as a props-event state machine with cancellable timers
-/

namespace ColdEmail

/-! ## Text processing (client/src/utils/textProcessing.ts)

JS strings are modelled as Lean strings (lists of characters).  The regex
based transforms are modelled by direct scanning functions that implement
the same replacement semantics.
-/

/-- Character class matched by the JS regex class backslash-s and removed by
String.prototype.trim: ASCII whitespace plus vertical tab, form feed and
no-break space (the Unicode members beyond these never occur in the inputs
of interest). -/
def jsWhitespace (c : Char) : Bool :=
  c = ' ' || c = '\t' || c = '\n' || c = '\r' || c = '\x0b' || c = '\x0c' ||
    c.toNat = 0xa0

/-- JS String.prototype.trim: drop leading and trailing whitespace. -/
def jsTrim (s : List Char) : List Char :=
  ((s.dropWhile jsWhitespace).reverse.dropWhile jsWhitespace).reverse

/-- Case-insensitive test that the pattern (given in lower case) starts the
string, mirroring a regex literal under the i flag. -/
def ciStartsWith (pat s : List Char) : Bool :=
  decide ((s.take pat.length).map Char.toLower = pat)

/-- The opening tag of the span removed by removeThinkTags. -/
def openTag : List Char := "<think>".toList

/-- The closing tag of the span removed by removeThinkTags. -/
def closeTag : List Char := "</think>".toList

/-- Scan for the nearest case-insensitive closing tag; on success return the
suffix after it.  This realizes the lazy quantifier of the source regex. -/
def findSpanEnd : List Char → Option (List Char)
  | [] => none
  | c :: cs =>
    if ciStartsWith closeTag (c :: cs) then some ((c :: cs).drop closeTag.length)
    else findSpanEnd cs

/-- One pass of the global replacement in removeThinkTags: whenever a
case-insensitive opening tag with a later closing tag starts here, drop the
whole span and continue after it; otherwise keep the character.  Fuel-indexed
so that the function is structurally recursive; fuel equal to the input
length always suffices because each removed span is strictly longer than the
fuel spent on it. -/
def removeCoreF : Nat → List Char → List Char
  | 0, s => s
  | _ + 1, [] => []
  | f + 1, c :: cs =>
    if ciStartsWith openTag (c :: cs) then
      match findSpanEnd ((c :: cs).drop openTag.length) with
      | some rest => removeCoreF f rest
      | none => c :: removeCoreF f cs
    else c :: removeCoreF f cs

/-- textProcessing.ts, removeThinkTags: delete every lazily matched
case-insensitive think-tag span (g and i flags), then trim. -/
def removeThinkTags (s : String) : String :=
  String.mk (jsTrim (removeCoreF s.toList.length s.toList))

/-- Case-insensitive containment of the opening tag, used to state the
no-span case of removeThinkTags. -/
def containsOpenTag : List Char → Bool
  | [] => false
  | c :: cs => ciStartsWith openTag (c :: cs) || containsOpenTag cs

theorem removeCoreF_of_not_contains :
    ∀ (f : Nat) (s : List Char), containsOpenTag s = false → removeCoreF f s = s := by
  intro f
  induction f with
  | zero => intro s _; rfl
  | succ f ih =>
    intro s h
    cases s with
    | nil => rfl
    | cons c cs =>
      simp only [containsOpenTag, Bool.or_eq_false_iff] at h
      simp only [removeCoreF, h.1, if_false, Bool.false_eq_true]
      exact congrArg (c :: ·) (ih cs h.2)

/-- The three-backtick fence characters. -/
def fenceTicks : List Char := "```".toList

/-- The leading fence opener accepted by stripMarkdownCodeBlocks, in lower
case for the case-insensitive match. -/
def fenceJson : List Char := "```json".toList

/-- First replacement of stripMarkdownCodeBlocks: the anchored
case-insensitive leading fence opener followed by greedy whitespace.  The
optional trailing newline of the source pattern is subsumed by the greedy
whitespace class before it. -/
def stripLeadingJsonFence (s : List Char) : List Char :=
  if ciStartsWith fenceJson s then (s.drop fenceJson.length).dropWhile jsWhitespace
  else s

/-- Drop trailing whitespace only. -/
def dropTrailingWs (s : List Char) : List Char :=
  (s.reverse.dropWhile jsWhitespace).reverse

/-- Second replacement of stripMarkdownCodeBlocks: an optional newline, three
backticks and trailing whitespace anchored at the end of the string.  The
match can only sit at the last non-whitespace position, so it exists exactly
when the whitespace-trimmed string ends in the fence; the replacement then
removes everything from the optional preceding newline on. -/
def stripTrailingFence (s : List Char) : List Char :=
  let r := dropTrailingWs s
  if fenceTicks.length ≤ r.length ∧ r.drop (r.length - fenceTicks.length) = fenceTicks then
    let core := r.take (r.length - fenceTicks.length)
    if core.getLast? = some '\n' then core.dropLast else core
  else s

/-- textProcessing.ts, stripMarkdownCodeBlocks: strip the leading json fence
opener, strip the trailing fence, then trim. -/
def stripMarkdownCodeBlocks (s : String) : String :=
  String.mk (jsTrim (stripTrailingFence (stripLeadingJsonFence s.toList)))

/-! ### JSON values and JSON.parse

parseJsonWrapper calls the JS builtin JSON.parse.  The builtin is modelled
by an executable recursive-descent parser for the JSON grammar (RFC 8259,
which JSON.parse implements): strict whitespace set, string escapes,
number syntax, arrays and objects.  Numeric values are kept as their
lexemes since no caller of the repository inspects them. -/

inductive Json where
  | null
  | jbool (b : Bool)
  | num (raw : String)
  | str (s : String)
  | arr (elems : List Json)
  | obj (fields : List (String × Json))

/-- The JSON whitespace set (space, tab, line feed, carriage return). -/
def jsonWs (c : Char) : Bool :=
  c = ' ' || c = '\t' || c = '\n' || c = '\r'

def skipWs : List Char → List Char
  | [] => []
  | c :: cs => if jsonWs c then skipWs cs else c :: cs

def hexDigitVal (c : Char) : Option Nat :=
  if c.isDigit then some (c.toNat - '0'.toNat)
  else if 'a' ≤ c ∧ c ≤ 'f' then some (c.toNat - 'a'.toNat + 10)
  else if 'A' ≤ c ∧ c ≤ 'F' then some (c.toNat - 'A'.toNat + 10)
  else none

/-- Parse the body of a JSON string after the opening quote; return the
decoded characters and the remainder after the closing quote.  Control
characters and invalid escapes are rejected as JSON.parse does.  (Lone
UTF-16 surrogates from backslash-u escapes, which Lean characters cannot
represent, are mapped to the default character; no input of interest
contains them.) -/
def parseStringBody : Nat → List Char → Option (List Char × List Char)
  | 0, _ => none
  | _ + 1, [] => none
  | f + 1, c :: cs =>
    if c = '"' then some ([], cs)
    else if c = '\\' then
      match cs with
      | [] => none
      | e :: cs2 =>
        let cont (ch : Char) (rest : List Char) : Option (List Char × List Char) :=
          match parseStringBody f rest with
          | some (l, r) => some (ch :: l, r)
          | none => none
        if e = '"' then cont '"' cs2
        else if e = '\\' then cont '\\' cs2
        else if e = '/' then cont '/' cs2
        else if e = 'b' then cont '\x08' cs2
        else if e = 'f' then cont '\x0c' cs2
        else if e = 'n' then cont '\n' cs2
        else if e = 'r' then cont '\r' cs2
        else if e = 't' then cont '\t' cs2
        else if e = 'u' then
          match cs2 with
          | h1 :: h2 :: h3 :: h4 :: rest =>
            match hexDigitVal h1, hexDigitVal h2, hexDigitVal h3, hexDigitVal h4 with
            | some v1, some v2, some v3, some v4 =>
              cont (Char.ofNat (((v1 * 16 + v2) * 16 + v3) * 16 + v4)) rest
            | _, _, _, _ => none
          | _ => none
        else none
    else if c.toNat < 0x20 then none
    else
      match parseStringBody f cs with
      | some (l, r) => some (c :: l, r)
      | none => none

/-- Parse a JSON number lexeme (minus? int frac? exp?); return the lexeme
and the remainder. -/
def parseNumber (s : List Char) : Option (List Char × List Char) :=
  let (neg, s1) : List Char × List Char :=
    match s with
    | '-' :: rest => (['-'], rest)
    | _ => ([], s)
  match s1 with
  | '0' :: rest =>
    some (neg ++ ['0'], rest)
  | c :: _ =>
    if c.isDigit then
      let intPart := s1.takeWhile Char.isDigit
      some (neg ++ intPart, s1.dropWhile Char.isDigit)
    else none
  | [] => none

/-- Parse the optional fraction part. -/
def parseFrac (s : List Char) : Option (List Char × List Char) :=
  match s with
  | '.' :: rest =>
    let ds := rest.takeWhile Char.isDigit
    if ds = [] then none
    else some ('.' :: ds, rest.dropWhile Char.isDigit)
  | _ => some ([], s)

/-- Parse the optional exponent part. -/
def parseExp (s : List Char) : Option (List Char × List Char) :=
  match s with
  | e :: rest =>
    if e = 'e' ∨ e = 'E' then
      let (sgn, r2) : List Char × List Char :=
        match rest with
        | '+' :: r => (['+'], r)
        | '-' :: r => (['-'], r)
        | _ => ([], rest)
      let ds := r2.takeWhile Char.isDigit
      if ds = [] then none
      else some (e :: (sgn ++ ds), r2.dropWhile Char.isDigit)
    else some ([], s)
  | [] => some ([], s)

/-- Parse a full JSON number. -/
def parseNumeral (s : List Char) : Option (List Char × List Char) :=
  match parseNumber s with
  | some (ip, r1) =>
    match parseFrac r1 with
    | some (fp, r2) =>
      match parseExp r2 with
      | some (ep, r3) => some (ip ++ fp ++ ep, r3)
      | none => none
    | none => none
  | none => none

mutual

/-- Parse one JSON value at the head of the input (leading whitespace
already skipped). -/
def parseValue : Nat → List Char → Option (Json × List Char)
  | 0, _ => none
  | f + 1, s =>
    match s with
    | 'n' :: 'u' :: 'l' :: 'l' :: rest => some (.null, rest)
    | 't' :: 'r' :: 'u' :: 'e' :: rest => some (.jbool true, rest)
    | 'f' :: 'a' :: 'l' :: 's' :: 'e' :: rest => some (.jbool false, rest)
    | '"' :: rest =>
      match parseStringBody rest.length rest with
      | some (l, r) => some (.str (String.mk l), r)
      | none => none
    | '[' :: rest =>
      match skipWs rest with
      | ']' :: r2 => some (.arr [], r2)
      | r1 =>
        match parseElems f r1 with
        | some (vs, r2) => some (.arr vs, r2)
        | none => none
    | '\x7b' :: rest =>
      match skipWs rest with
      | '\x7d' :: r2 => some (.obj [], r2)
      | r1 =>
        match parseMembers f r1 with
        | some (ms, r2) => some (.obj ms, r2)
        | none => none
    | c :: _ =>
      if c = '-' ∨ c.isDigit then
        match parseNumeral s with
        | some (lex, r) => some (.num (String.mk lex), r)
        | none => none
      else none
    | [] => none

/-- Parse the comma-separated elements of a nonempty array up to the
closing bracket. -/
def parseElems : Nat → List Char → Option (List Json × List Char)
  | 0, _ => none
  | f + 1, s =>
    match parseValue f s with
    | some (v, r) =>
      match skipWs r with
      | ',' :: r2 =>
        match parseElems f (skipWs r2) with
        | some (vs, r3) => some (v :: vs, r3)
        | none => none
      | ']' :: r2 => some ([v], r2)
      | _ => none
    | none => none

/-- Parse the comma-separated members of a nonempty object up to the
closing brace. -/
def parseMembers : Nat → List Char → Option (List (String × Json) × List Char)
  | 0, _ => none
  | f + 1, s =>
    match s with
    | '"' :: rest =>
      match parseStringBody rest.length rest with
      | some (k, r) =>
        match skipWs r with
        | ':' :: r2 =>
          match parseValue f (skipWs r2) with
          | some (v, r3) =>
            match skipWs r3 with
            | ',' :: r4 =>
              match parseMembers f (skipWs r4) with
              | some (ms, r5) => some ((String.mk k, v) :: ms, r5)
              | none => none
            | '\x7d' :: r4 => some ([(String.mk k, v)], r4)
            | _ => none
          | none => none
        | _ => none
      | none => none
    | _ => none

end

/-- The JS builtin JSON.parse: a value surrounded by whitespace and nothing
else; failure is an exception in JS, modelled as none.  The fuel bound is
generous: nesting depth is at most the input length and every level of the
mutual recursion consumes input. -/
def jsonParse (s : String) : Option Json :=
  let l := skipWs s.toList
  match parseValue (2 * l.length + 8) l with
  | some (v, rest) => if skipWs rest = [] then some v else none
  | none => none

/-- JS property lookup on a parse result: only objects carry named fields
(a duplicate key keeps its last occurrence, as in a JS object literal);
every other value yields undefined, modelled as none. -/
def getField (j : Json) (key : String) : Option Json :=
  match j with
  | .obj fields => ((fields.filter (fun kv => kv.1 = key)).getLast?).map (·.2)
  | _ => none

/-- Result record of parseJsonWrapper; undefined optional fields are none. -/
structure WrapperResult where
  email : Option Json
  reasoning : Option Json
  parsed : Bool

/-- textProcessing.ts, parseJsonWrapper: strip the markdown fences, try
JSON.parse, and on success read the final_email and reasoning properties.
A successful parse to the JSON literal null makes the property access throw
a TypeError inside the try block, so it lands in the same catch branch as a
parse failure.  The catch branch returns the fence-stripped text with
parsed set to false. -/
def parseJsonWrapper (content : String) : WrapperResult :=
  match jsonParse (stripMarkdownCodeBlocks content) with
  | some .null => ⟨some (.str (stripMarkdownCodeBlocks content)), none, false⟩
  | some v => ⟨getField v "final_email", getField v "reasoning", true⟩
  | none => ⟨some (.str (stripMarkdownCodeBlocks content)), none, false⟩

/-! ## Request lifecycle (client/src/hooks/useEmailGeneration.ts)

The hook is modelled as an explicit state record plus an event-trace
semantics for handleGenerate.  The browser event loop is single threaded:
the synchronous prologue of handleGenerate runs at time 0, the progress
interval fires every 500 ms while armed, the abort timer is armed for
120000 ms, and the awaited fetch settles at the time given by the
environment (or is rejected by the abort at the timeout).  All state writes
are recorded as timed actions in chronological order; the visible hook
state at any point is the fold of the actions up to that point. -/

/-- A File object as validated by handleFileChange: name, MIME type and
byte size. -/
structure FileRec where
  name : String
  type : String
  size : Nat
deriving DecidableEq

/-- types/api.ts UIMetadata.position. -/
inductive SlotPosition where
  | left | center | right
deriving DecidableEq

/-- types/api.ts AgentDraft, restricted to the fields the lifecycle and
reveal logic read. -/
structure AgentDraft where
  agent_name : String
  model : String
  draft : String
  status : String
  position : SlotPosition
deriving DecidableEq

/-- types/api.ts AggregationResult, restricted to the fields read. -/
structure AggregationResult where
  final_email : String
  reasoning : String
deriving DecidableEq

/-- types/api.ts EmailGenerationResponse, restricted to the fields read. -/
structure Payload where
  request_id : String
  status : String
  agent_drafts : List AgentDraft
  aggregation : AggregationResult
deriving DecidableEq

/-- The five useState cells of useEmailGeneration. -/
structure HookState where
  jobUrl : String
  resume : Option FileRec
  isGenerating : Bool
  result : Option Payload
  progress : ℚ
deriving DecidableEq

/-- The initial hook state (useState initial values). -/
def initialHookState : HookState :=
  { jobUrl := "", resume := none, isGenerating := false, result := none, progress := 0 }

/-- A toast notification: destructive (err) or default (ok). -/
inductive Toast where
  | err (title description : String)
  | ok (title description : String)
deriving DecidableEq

/-- Configuration constants of useEmailGeneration.ts. -/
def REQUEST_TIMEOUT : Nat := 120000

def PROGRESS_UPDATE_INTERVAL : Nat := 500

def ESTIMATED_PROCESSING_TIME : ℚ := 45000

/-- PROGRESS_STAGES of useEmailGeneration.ts. -/
def stagePrepare : ℚ := 5

def stageSend : ℚ := 10

def stageSendComplete : ℚ := 20

def stageProcessingStart : ℚ := 20

def stageProcessingEnd : ℚ := 80

def stageResponseReceived : ℚ := 85

def stageParsing : ℚ := 90

def stagePreComplete : ℚ := 95

def stageComplete : ℚ := 100

/-- The value written by one firing of the interval armed by
startProgressTracking, at elapsed time t since startTime (JS numbers are
modelled by exact rationals; the operations involved are monotone under
rounding, so monotonicity statements transfer). -/
def tickVal (t : Nat) : ℚ :=
  min stageProcessingEnd
    (stageProcessingStart + (t : ℚ) / ESTIMATED_PROCESSING_TIME *
      (stageProcessingEnd - stageProcessingStart))

/-- The firing times of the recurring interval: next, next + 500, ...;
strictly before the stop time at which clearInterval runs.  Fuel-indexed to
be structurally recursive; the derived properties below hold for every
fuel. -/
def tickTimesF : Nat → Nat → Nat → List Nat
  | 0, _, _ => []
  | f + 1, next, stop =>
    if next < stop then next :: tickTimesF f (next + 500) stop else []

/-- Firing times of the interval from its first firing at 500 ms until the
stop time; the fuel equal to the stop time always suffices since the times
advance by 500 per firing. -/
def tickTimes (stop : Nat) : List Nat :=
  tickTimesF stop 500 stop

/-- Observable actions of one handleGenerate run, in event-loop order.
State writes (setProgress, setResult, setGenerating) change the hook state;
the remaining actions record network and timer management effects. -/
inductive Act where
  | setProgress (v : ℚ)
  | setResult (r : Option Payload)
  | setGenerating (b : Bool)
  | toast (t : Toast)
  | fetchStart
  | armAbortTimer
  | clearAbortTimer
  | armProgressInterval
  | clearProgressInterval
  | abortCalled
  | armSuccessTimer
deriving DecidableEq

/-- How the fetch promise would settle if never aborted. -/
inductive FetchOutcome where
  | reject
  | resolve (ok : Bool) (body : Option Payload)
deriving DecidableEq

/-- The environment of one request: the time at which the fetch settles on
its own (none = never) and how.  A body of none models a response whose
json() call rejects (malformed body). -/
structure FetchEnv where
  time : Option Nat
  outcome : FetchOutcome
deriving DecidableEq

/-- Whether the fetch settles on its own before the abort timer fires. -/
def FetchEnv.natural (env : FetchEnv) : Bool :=
  match env.time with
  | some t => t < REQUEST_TIMEOUT
  | none => false

/-- The time at which the awaited fetch settles: its own settle time, or
the timeout at which the abort rejects it. -/
def FetchEnv.settleTime (env : FetchEnv) : Nat :=
  match env.time with
  | some t => if t < REQUEST_TIMEOUT then t else REQUEST_TIMEOUT
  | none => REQUEST_TIMEOUT

/-- How the awaited fetch settles: its own outcome, or rejection by abort. -/
def FetchEnv.settleOutcome (env : FetchEnv) : FetchOutcome :=
  if env.natural then env.outcome else .reject

/-- The messages of the failure toast: title from the source, description
is error.message for an Error (the non-2xx branch throws
Error with the fixed text below; transport, abort and JSON errors carry
browser-supplied text, modelled by fixed representative strings). -/
def failToast (description : String) : Act :=
  .toast (.err "Generation failed" description)

def rejectMessage : String := "Failed to fetch"

def jsonErrorMessage : String := "Unexpected token in JSON"

/-- The timed action trace of one handleGenerate call from the hook state s
under environment env.  Validation failure emits one toast and nothing
else.  Otherwise: the synchronous prologue at time 0 (flags, progress
floors, arming the abort timer, opening the fetch, arming the interval),
the interval firings strictly before the settle time, then the settle
continuation; the catch path clears the interval (again), resets progress
and emits the failure toast; the success path stores the payload, arms the
300 ms completion timer and finishes at settle + 300.  A fetch rejected at
the transport level leaves the abort timer armed, so it still fires at the
timeout (abortCalled with no state write). -/
def generateRun (s : HookState) (env : FetchEnv) : List (Nat × Act) :=
  if s.jobUrl = "" ∨ s.resume = none then
    [(0, .toast (.err "Missing information" "Please provide both job URL and resume"))]
  else
    let st := env.settleTime
    let pre : List (Nat × Act) :=
      [(0, .setGenerating true), (0, .setResult none), (0, .setProgress 0),
       (0, .setProgress stagePrepare), (0, .setProgress stageSend),
       (0, .armAbortTimer), (0, .fetchStart),
       (0, .setProgress stageSendComplete), (0, .armProgressInterval)]
    let ticks : List (Nat × Act) :=
      (tickTimes st).map (fun t => (t, Act.setProgress (tickVal t)))
    let abortBefore : List (Nat × Act) :=
      if env.natural then [] else [(REQUEST_TIMEOUT, .abortCalled)]
    match env.settleOutcome with
    | .reject =>
      let catchActs : List (Nat × Act) :=
        [(st, .clearProgressInterval), (st, .setProgress 0),
         (st, failToast rejectMessage), (st, .setGenerating false)]
      let abortAfter : List (Nat × Act) :=
        if env.natural then [(REQUEST_TIMEOUT, .abortCalled)] else []
      pre ++ ticks ++ abortBefore ++ catchActs ++ abortAfter
    | .resolve ok body =>
      let resolveActs : List (Nat × Act) :=
        [(st, .clearAbortTimer), (st, .clearProgressInterval),
         (st, .setProgress stageResponseReceived)]
      if ok then
        match body with
        | some p =>
          pre ++ ticks ++ resolveActs ++
            [(st, .setProgress stageParsing), (st, .setProgress stagePreComplete),
             (st, .setResult (some p)), (st, .armSuccessTimer),
             (st, .setGenerating false),
             (st + 300, .setProgress stageComplete),
             (st + 300, .toast (.ok "Email generated!" "Your personalized cold email is ready"))]
        | none =>
          pre ++ ticks ++ resolveActs ++
            [(st, .setProgress stageParsing),
             (st, .clearProgressInterval), (st, .setProgress 0),
             (st, failToast jsonErrorMessage), (st, .setGenerating false)]
      else
        pre ++ ticks ++ resolveActs ++
          [(st, .clearProgressInterval), (st, .setProgress 0),
           (st, failToast "Failed to generate email"), (st, .setGenerating false)]

/-- Effect of one action on the hook state; non-write actions are
no-ops. -/
def applyAct (s : HookState) : Act → HookState
  | .setProgress v => { s with progress := v }
  | .setResult r => { s with result := r }
  | .setGenerating b => { s with isGenerating := b }
  | _ => s

/-- Fold a timed action list over a state. -/
def applyActs (s : HookState) (l : List (Nat × Act)) : HookState :=
  l.foldl (fun st a => applyAct st a.2) s

/-- The hook state after a full handleGenerate run. -/
def afterRun (s : HookState) (env : FetchEnv) : HookState :=
  applyActs s (generateRun s env)

/-- handleClear of useEmailGeneration.ts: reset url, resume, result and
progress (isGenerating is untouched; it is only toggled by
handleGenerate). -/
def handleClear (s : HookState) : HookState :=
  { s with jobUrl := "", resume := none, result := none, progress := 0 }

/-- The hook state reached when handleClear is called at time clearAt
during a handleGenerate run: the writes up to clearAt apply, then the
clear, then the remaining writes of the still-running request, which are
ordinary setState calls with no staleness guard. -/
def runWithClear (s : HookState) (env : FetchEnv) (clearAt : Nat) : HookState :=
  applyActs
    (handleClear (applyActs s ((generateRun s env).filter (fun a => a.1 ≤ clearAt))))
    ((generateRun s env).filter (fun a => clearAt < a.1))

/-- The accepted MIME types of handleFileChange. -/
def validTypes : List String :=
  ["application/pdf",
   "application/vnd.openxmlformats-officedocument.wordprocessingml.document"]

/-- The size cap of handleFileChange (20 MiB). -/
def MAX_FILE_SIZE : Nat := 20 * 1024 * 1024

/-- handleFileChange of useEmailGeneration.ts: no file selected is a silent
no-op; a wrong type or an oversize file emits a destructive toast and
leaves the state untouched; otherwise the file is stored. -/
def handleFileChange (s : HookState) : Option FileRec → HookState × List Toast
  | none => (s, [])
  | some f =>
    if ¬ (validTypes.contains f.type) then
      (s, [.err "Invalid file type" "Please upload a PDF or DOCX file"])
    else if MAX_FILE_SIZE < f.size then
      (s, [.err "File too large" "Maximum file size is 20MB"])
    else
      ({ s with resume := some f }, [])

/-- A concrete valid file for witnesses. -/
def file0 : FileRec := { name := "resume.pdf", type := "application/pdf", size := 1000 }

/-- A concrete successful payload for witnesses. -/
def payload0 : Payload :=
  { request_id := "req-1", status := "complete", agent_drafts := [],
    aggregation := { final_email := "Hi", reasoning := "why" } }

/-- A concrete hook state with valid inputs for witnesses. -/
def s0 : HookState :=
  { jobUrl := "https://jobs.example/1", resume := some file0,
    isGenerating := false, result := none, progress := 0 }

/-- A concrete environment: the fetch resolves successfully at 400 ms. -/
def envOk : FetchEnv := { time := some 400, outcome := .resolve true (some payload0) }

/-! ### Properties of the simulated-progress clock -/

theorem tickVal_le_processingEnd (t : Nat) : tickVal t ≤ stageProcessingEnd :=
  min_le_left _ _

theorem processingStart_le_tickVal (t : Nat) : stageProcessingStart ≤ tickVal t := by
  refine le_min (by norm_num [stageProcessingStart, stageProcessingEnd]) ?_
  have h : (0 : ℚ) ≤ (t : ℚ) / ESTIMATED_PROCESSING_TIME *
      (stageProcessingEnd - stageProcessingStart) := by
    have ht : (0 : ℚ) ≤ (t : ℚ) := Nat.cast_nonneg t
    norm_num [ESTIMATED_PROCESSING_TIME, stageProcessingEnd, stageProcessingStart]
    positivity
  linarith

theorem tickVal_mono {m n : Nat} (h : m ≤ n) : tickVal m ≤ tickVal n := by
  refine min_le_min le_rfl ?_
  have hc : (m : ℚ) ≤ (n : ℚ) := by exact_mod_cast h
  have : (m : ℚ) / ESTIMATED_PROCESSING_TIME * (stageProcessingEnd - stageProcessingStart) ≤
      (n : ℚ) / ESTIMATED_PROCESSING_TIME * (stageProcessingEnd - stageProcessingStart) := by
    norm_num [ESTIMATED_PROCESSING_TIME, stageProcessingEnd, stageProcessingStart]
    linarith
  linarith

/-- Every firing time of the interval precedes the stop time. -/
theorem tickTimesF_mem_lt :
    ∀ (f n stop x : Nat), x ∈ tickTimesF f n stop → x < stop := by
  intro f
  induction f with
  | zero => intro n stop x hx; simp [tickTimesF] at hx
  | succ f ih =>
    intro n stop x hx
    by_cases h : n < stop
    · simp only [tickTimesF, if_pos h, List.mem_cons] at hx
      rcases hx with rfl | hx
      · exact h
      · exact ih _ _ _ hx
    · simp [tickTimesF, if_neg h] at hx

/-- The interval values form a non-decreasing chain from any lower bound of
the first firing. -/
theorem tickTimesF_chain :
    ∀ (f n stop : Nat) (q : ℚ), q ≤ tickVal n →
      List.Chain (· ≤ ·) q ((tickTimesF f n stop).map tickVal) := by
  intro f
  induction f with
  | zero => intro n stop q _; exact List.Chain.nil
  | succ f ih =>
    intro n stop q hq
    by_cases h : n < stop
    · simp only [tickTimesF, if_pos h, List.map_cons]
      exact List.Chain.cons hq (ih _ _ _ (tickVal_mono (Nat.le_add_right n 500)))
    · simp only [tickTimesF, if_neg h, List.map_nil]
      exact List.Chain.nil

/-- As the previous chain, extended with the four terminal floors applied
after the interval is cleared. -/
theorem tickTimesF_chain_term :
    ∀ (f n stop : Nat) (q : ℚ), q ≤ tickVal n → q ≤ stageResponseReceived →
      List.Chain (· ≤ ·) q ((tickTimesF f n stop).map tickVal ++
        [stageResponseReceived, stageParsing, stagePreComplete, stageComplete]) := by
  intro f
  induction f with
  | zero =>
    intro n stop q _ hq85
    refine List.Chain.cons hq85 ?_
    norm_num [stageResponseReceived, stageParsing, stagePreComplete, stageComplete]
  | succ f ih =>
    intro n stop q hq hq85
    by_cases h : n < stop
    · simp only [tickTimesF, if_pos h, List.map_cons, List.cons_append]
      refine List.Chain.cons hq ?_
      refine ih _ _ _ (tickVal_mono (Nat.le_add_right n 500)) ?_
      calc tickVal n ≤ stageProcessingEnd := tickVal_le_processingEnd n
        _ ≤ stageResponseReceived := by
            norm_num [stageProcessingEnd, stageResponseReceived]
    · simp only [tickTimesF, if_neg h, List.map_nil, List.nil_append]
      refine List.Chain.cons hq85 ?_
      norm_num [stageResponseReceived, stageParsing, stagePreComplete, stageComplete]

/-! ### Trace and state helpers -/

/-- The sequence of values written to the progress cell by a trace, in
order. -/
def progressWrites (tr : List (Nat × Act)) : List ℚ :=
  tr.filterMap (fun a =>
    match a.2 with
    | .setProgress v => some v
    | _ => none)

theorem progressWrites_append (l₁ l₂ : List (Nat × Act)) :
    progressWrites (l₁ ++ l₂) = progressWrites l₁ ++ progressWrites l₂ :=
  List.filterMap_append _ _ _

theorem progressWrites_tickmap (l : List Nat) :
    progressWrites (l.map (fun t => (t, Act.setProgress (tickVal t)))) = l.map tickVal := by
  induction l with
  | nil => rfl
  | cons x xs ih => simp [progressWrites, List.filterMap_cons] at ih ⊢; exact ih

theorem applyActs_append (s : HookState) (l₁ l₂ : List (Nat × Act)) :
    applyActs s (l₁ ++ l₂) = applyActs (applyActs s l₁) l₂ :=
  List.foldl_append _ _ _ _

/-- Folding interval writes only moves the progress cell. -/
theorem applyActs_tickmap :
    ∀ (l : List Nat) (st : HookState),
      ∃ q, applyActs st (l.map (fun t => (t, Act.setProgress (tickVal t)))) =
        { st with progress := q } := by
  intro l
  induction l with
  | nil => intro st; exact ⟨st.progress, rfl⟩
  | cons x xs ih =>
    intro st
    rcases ih { st with progress := tickVal x } with ⟨q, hq⟩
    exact ⟨q, hq⟩

/-! ### Trace shapes of handleGenerate, one per settle case -/

/-- The synchronous prologue of a validated handleGenerate call. -/
def preActs : List (Nat × Act) :=
  [(0, .setGenerating true), (0, .setResult none), (0, .setProgress 0),
   (0, .setProgress stagePrepare), (0, .setProgress stageSend),
   (0, .armAbortTimer), (0, .fetchStart),
   (0, .setProgress stageSendComplete), (0, .armProgressInterval)]

/-- The interval firings up to the settle time as trace entries. -/
def tickActs (stop : Nat) : List (Nat × Act) :=
  (tickTimes stop).map (fun t => (t, Act.setProgress (tickVal t)))

theorem generateRun_success (s : HookState) (t : Nat) (p : Payload)
    (hu : s.jobUrl ≠ "") (hr : s.resume ≠ none) (ht : t < REQUEST_TIMEOUT) :
    generateRun s ⟨some t, .resolve true (some p)⟩ =
      preActs ++ tickActs t ++
      [(t, .clearAbortTimer), (t, .clearProgressInterval),
       (t, .setProgress stageResponseReceived),
       (t, .setProgress stageParsing), (t, .setProgress stagePreComplete),
       (t, .setResult (some p)), (t, .armSuccessTimer),
       (t, .setGenerating false),
       (t + 300, .setProgress stageComplete),
       (t + 300, .toast (.ok "Email generated!" "Your personalized cold email is ready"))] := by
  unfold generateRun
  rw [if_neg (not_or.mpr ⟨hu, hr⟩)]
  simp [FetchEnv.settleOutcome, FetchEnv.natural, FetchEnv.settleTime, ht,
    preActs, tickActs, tickTimes]

theorem generateRun_reject (s : HookState) (t : Nat)
    (hu : s.jobUrl ≠ "") (hr : s.resume ≠ none) (ht : t < REQUEST_TIMEOUT) :
    generateRun s ⟨some t, .reject⟩ =
      preActs ++ tickActs t ++
      [(t, .clearProgressInterval), (t, .setProgress 0),
       (t, failToast rejectMessage), (t, .setGenerating false),
       (REQUEST_TIMEOUT, .abortCalled)] := by
  unfold generateRun
  rw [if_neg (not_or.mpr ⟨hu, hr⟩)]
  simp [FetchEnv.settleOutcome, FetchEnv.natural, FetchEnv.settleTime, ht,
    preActs, tickActs, tickTimes]

theorem generateRun_timeout (s : HookState) (env : FetchEnv)
    (hu : s.jobUrl ≠ "") (hr : s.resume ≠ none) (hn : env.natural = false) :
    generateRun s env =
      preActs ++ tickActs REQUEST_TIMEOUT ++
      [(REQUEST_TIMEOUT, .abortCalled)] ++
      [(REQUEST_TIMEOUT, .clearProgressInterval), (REQUEST_TIMEOUT, .setProgress 0),
       (REQUEST_TIMEOUT, failToast rejectMessage), (REQUEST_TIMEOUT, .setGenerating false)] := by
  have hst : env.settleTime = REQUEST_TIMEOUT := by
    unfold FetchEnv.settleTime
    unfold FetchEnv.natural at hn
    cases henv : env.time with
    | none => rfl
    | some u => rw [henv] at hn; simp at hn; simp [if_neg (by omega : ¬ u < REQUEST_TIMEOUT)]
  have hso : env.settleOutcome = .reject := by
    unfold FetchEnv.settleOutcome
    rw [hn]
    rfl
  unfold generateRun
  rw [if_neg (not_or.mpr ⟨hu, hr⟩)]
  rw [hso, hst, hn]
  simp [preActs, tickActs, tickTimes]

theorem generateRun_notOk (s : HookState) (t : Nat) (body : Option Payload)
    (hu : s.jobUrl ≠ "") (hr : s.resume ≠ none) (ht : t < REQUEST_TIMEOUT) :
    generateRun s ⟨some t, .resolve false body⟩ =
      preActs ++ tickActs t ++
      [(t, .clearAbortTimer), (t, .clearProgressInterval),
       (t, .setProgress stageResponseReceived),
       (t, .clearProgressInterval), (t, .setProgress 0),
       (t, failToast "Failed to generate email"), (t, .setGenerating false)] := by
  unfold generateRun
  rw [if_neg (not_or.mpr ⟨hu, hr⟩)]
  simp [FetchEnv.settleOutcome, FetchEnv.natural, FetchEnv.settleTime, ht,
    preActs, tickActs, tickTimes]

theorem generateRun_decodeFail (s : HookState) (t : Nat)
    (hu : s.jobUrl ≠ "") (hr : s.resume ≠ none) (ht : t < REQUEST_TIMEOUT) :
    generateRun s ⟨some t, .resolve true none⟩ =
      preActs ++ tickActs t ++
      [(t, .clearAbortTimer), (t, .clearProgressInterval),
       (t, .setProgress stageResponseReceived),
       (t, .setProgress stageParsing),
       (t, .clearProgressInterval), (t, .setProgress 0),
       (t, failToast jsonErrorMessage), (t, .setGenerating false)] := by
  unfold generateRun
  rw [if_neg (not_or.mpr ⟨hu, hr⟩)]
  simp [FetchEnv.settleOutcome, FetchEnv.natural, FetchEnv.settleTime, ht,
    preActs, tickActs, tickTimes]

theorem progressWrites_preActs :
    progressWrites preActs = [0, stagePrepare, stageSend, stageSendComplete] := rfl

theorem progressWrites_tickActs (stop : Nat) :
    progressWrites (tickActs stop) = (tickTimes stop).map tickVal :=
  progressWrites_tickmap _

theorem sendComplete_le_tickVal (n : Nat) : stageSendComplete ≤ tickVal n := by
  have h := processingStart_le_tickVal n
  have he : stageSendComplete = stageProcessingStart := by
    norm_num [stageSendComplete, stageProcessingStart]
  rw [he]
  exact h

/-- C2: within one request the progress writes are monotonically
non-decreasing; a successful request writes 0 first and 100 last with no
decrease in between, and a failing request is non-decreasing up to its
final write, which is the reset to 0. -/
theorem C2_progress_monotone (s : HookState) (t : Nat) (p : Payload)
    (hu : s.jobUrl ≠ "") (hr : s.resume ≠ none) (ht : t < REQUEST_TIMEOUT) :
    (List.Chain' (· ≤ ·) (progressWrites (generateRun s ⟨some t, .resolve true (some p)⟩)) ∧
     (progressWrites (generateRun s ⟨some t, .resolve true (some p)⟩)).head? = some 0 ∧
     (progressWrites (generateRun s ⟨some t, .resolve true (some p)⟩)).getLast? = some 100) ∧
    (List.Chain' (· ≤ ·) (progressWrites (generateRun s ⟨some t, .reject⟩)).dropLast ∧
     (progressWrites (generateRun s ⟨some t, .reject⟩)).getLast? = some 0) := by
  have hs := generateRun_success s t p hu hr ht
  have hrj := generateRun_reject s t hu hr ht
  have wsucc : progressWrites (generateRun s ⟨some t, .resolve true (some p)⟩) =
      ([0, stagePrepare, stageSend, stageSendComplete] ++ (tickTimesF t 500 t).map tickVal) ++
      [stageResponseReceived, stageParsing, stagePreComplete, stageComplete] := by
    rw [hs, progressWrites_append, progressWrites_append, progressWrites_preActs,
      progressWrites_tickActs]
    rfl
  have wrej : progressWrites (generateRun s ⟨some t, .reject⟩) =
      ([0, stagePrepare, stageSend, stageSendComplete] ++ (tickTimesF t 500 t).map tickVal) ++
      [0] := by
    rw [hrj, progressWrites_append, progressWrites_append, progressWrites_preActs,
      progressWrites_tickActs]
    rfl
  refine ⟨⟨?_, ?_, ?_⟩, ?_, ?_⟩
  · rw [wsucc]
    rw [show (([0, stagePrepare, stageSend, stageSendComplete] ++
          (tickTimesF t 500 t).map tickVal) ++
          [stageResponseReceived, stageParsing, stagePreComplete, stageComplete]) =
        0 :: stagePrepare :: stageSend :: stageSendComplete ::
          ((tickTimesF t 500 t).map tickVal ++
            [stageResponseReceived, stageParsing, stagePreComplete, stageComplete]) by simp]
    refine List.Chain'.cons (by norm_num [stagePrepare]) ?_
    refine List.Chain'.cons (by norm_num [stagePrepare, stageSend]) ?_
    refine List.Chain'.cons (by norm_num [stageSend, stageSendComplete]) ?_
    exact tickTimesF_chain_term t 500 t stageSendComplete (sendComplete_le_tickVal 500)
      (by norm_num [stageSendComplete, stageResponseReceived])
  · rw [wsucc]
    rfl
  · rw [wsucc, List.getLast?_append_cons]
    rfl
  · rw [wrej, List.dropLast_concat]
    rw [show (([0, stagePrepare, stageSend, stageSendComplete] ++
          (tickTimesF t 500 t).map tickVal)) =
        0 :: stagePrepare :: stageSend :: stageSendComplete ::
          ((tickTimesF t 500 t).map tickVal) by simp]
    refine List.Chain'.cons (by norm_num [stagePrepare]) ?_
    refine List.Chain'.cons (by norm_num [stagePrepare, stageSend]) ?_
    refine List.Chain'.cons (by norm_num [stageSend, stageSendComplete]) ?_
    exact tickTimesF_chain t 500 t stageSendComplete (sendComplete_le_tickVal 500)
  · rw [wrej, List.getLast?_append_cons]
    rfl

/-- C2 witness: the monotone 0-to-100 success run and the failing run
evaluated at a concrete request settling at 1300 ms. -/
theorem C2_progress_monotone_witness :
    s0.jobUrl ≠ "" ∧ s0.resume ≠ none ∧ 1300 < REQUEST_TIMEOUT ∧
    ((List.Chain' (· ≤ ·)
        (progressWrites (generateRun s0 ⟨some 1300, .resolve true (some payload0)⟩)) ∧
      (progressWrites (generateRun s0 ⟨some 1300, .resolve true (some payload0)⟩)).head? =
        some 0 ∧
      (progressWrites (generateRun s0 ⟨some 1300, .resolve true (some payload0)⟩)).getLast? =
        some 100) ∧
     (List.Chain' (· ≤ ·) (progressWrites (generateRun s0 ⟨some 1300, .reject⟩)).dropLast ∧
      (progressWrites (generateRun s0 ⟨some 1300, .reject⟩)).getLast? = some 0)) :=
  ⟨by decide, by decide, by decide,
   C2_progress_monotone s0 1300 payload0 (by decide) (by decide) (by decide)⟩

theorem applyActs_preActs (s : HookState) :
    applyActs s preActs =
      { s with isGenerating := true, result := none, progress := stageSendComplete } := rfl

theorem applyActs_tickActs (stop : Nat) (st : HookState) :
    ∃ q, applyActs st (tickActs stop) = { st with progress := q } :=
  applyActs_tickmap _ _

theorem preActs_time (a : Nat × Act) (h : a ∈ preActs) : a.1 = 0 := by
  fin_cases h <;> rfl

theorem tickActs_time (stop : Nat) (a : Nat × Act) (h : a ∈ tickActs stop) : a.1 < stop := by
  simp only [tickActs, tickTimes, List.mem_map] at h
  rcases h with ⟨x, hx, rfl⟩
  exact tickTimesF_mem_lt _ _ _ _ hx

/-- The final hook state of a request rejected at the transport level. -/
theorem afterRun_reject (s : HookState) (t : Nat)
    (hu : s.jobUrl ≠ "") (hr : s.resume ≠ none) (ht : t < REQUEST_TIMEOUT) :
    afterRun s ⟨some t, .reject⟩ =
      { s with isGenerating := false, result := none, progress := 0 } := by
  rw [afterRun, generateRun_reject s t hu hr ht, applyActs_append, applyActs_append,
    applyActs_preActs]
  rcases applyActs_tickActs t _ with ⟨q, hq⟩
  rw [hq]
  rfl

/-- The final hook state of a request that times out. -/
theorem afterRun_timeout (s : HookState) (env : FetchEnv)
    (hu : s.jobUrl ≠ "") (hr : s.resume ≠ none) (hn : env.natural = false) :
    afterRun s env =
      { s with isGenerating := false, result := none, progress := 0 } := by
  rw [afterRun, generateRun_timeout s env hu hr hn, applyActs_append, applyActs_append,
    applyActs_append, applyActs_preActs]
  rcases applyActs_tickActs REQUEST_TIMEOUT _ with ⟨q, hq⟩
  rw [hq]
  rfl

/-- The final hook state of a request answered with a non-2xx status. -/
theorem afterRun_notOk (s : HookState) (t : Nat) (body : Option Payload)
    (hu : s.jobUrl ≠ "") (hr : s.resume ≠ none) (ht : t < REQUEST_TIMEOUT) :
    afterRun s ⟨some t, .resolve false body⟩ =
      { s with isGenerating := false, result := none, progress := 0 } := by
  rw [afterRun, generateRun_notOk s t body hu hr ht, applyActs_append, applyActs_append,
    applyActs_preActs]
  rcases applyActs_tickActs t _ with ⟨q, hq⟩
  rw [hq]
  rfl

/-- The final hook state of a request whose body fails to decode. -/
theorem afterRun_decodeFail (s : HookState) (t : Nat)
    (hu : s.jobUrl ≠ "") (hr : s.resume ≠ none) (ht : t < REQUEST_TIMEOUT) :
    afterRun s ⟨some t, .resolve true none⟩ =
      { s with isGenerating := false, result := none, progress := 0 } := by
  rw [afterRun, generateRun_decodeFail s t hu hr ht, applyActs_append, applyActs_append,
    applyActs_preActs]
  rcases applyActs_tickActs t _ with ⟨q, hq⟩
  rw [hq]
  rfl

/-- C3: every failure of a validated request (transport rejection, timeout
at 120 s, non-2xx status, decode failure) stops the recurring progress
interval at the settle time, leaves no progress write after the settle
time, resets progress to 0 as the last progress write, ends with result
absent and isGenerating false, and emits a failure toast. -/
theorem C3_failure_resets (s : HookState) (env : FetchEnv)
    (hu : s.jobUrl ≠ "") (hr : s.resume ≠ none)
    (hf : ∀ p : Payload, env.settleOutcome ≠ .resolve true (some p)) :
    afterRun s env = { s with isGenerating := false, result := none, progress := 0 } ∧
    (env.settleTime, Act.clearProgressInterval) ∈ generateRun s env ∧
    (∃ d, (env.settleTime, failToast d) ∈ generateRun s env) ∧
    (∀ (u : Nat) (v : ℚ), (u, Act.setProgress v) ∈ generateRun s env → u ≤ env.settleTime) ∧
    (progressWrites (generateRun s env)).getLast? = some 0 := by
  obtain ⟨time, outcome⟩ := env
  by_cases hn : FetchEnv.natural ⟨time, outcome⟩ = true
  · cases time with
    | none => simp [FetchEnv.natural] at hn
    | some t =>
      have ht : t < REQUEST_TIMEOUT := by simpa [FetchEnv.natural] using hn
      have hst : FetchEnv.settleTime ⟨some t, outcome⟩ = t := by
        simp [FetchEnv.settleTime, ht]
      have hso : FetchEnv.settleOutcome ⟨some t, outcome⟩ = outcome := by
        simp [FetchEnv.settleOutcome, FetchEnv.natural, ht]
      rw [hst]
      cases outcome with
      | reject =>
        have hsh := generateRun_reject s t hu hr ht
        have w : progressWrites (generateRun s ⟨some t, .reject⟩) =
            ([0, stagePrepare, stageSend, stageSendComplete] ++
              (tickTimesF t 500 t).map tickVal) ++ [0] := by
          rw [hsh, progressWrites_append, progressWrites_append, progressWrites_preActs,
            progressWrites_tickActs]
          rfl
        refine ⟨afterRun_reject s t hu hr ht, ?_, ⟨rejectMessage, ?_⟩, ?_, ?_⟩
        · rw [hsh]
          exact List.mem_append.mpr (Or.inr (by simp))
        · rw [hsh]
          exact List.mem_append.mpr (Or.inr (by simp))
        · intro u v hm
          rw [hsh] at hm
          rcases List.mem_append.mp hm with hm2 | hm2
          · rcases List.mem_append.mp hm2 with hm3 | hm3
            · have h0 := preActs_time _ hm3
              simp at h0
              omega
            · have h0 := tickActs_time _ _ hm3
              simp at h0
              omega
          · simp at hm2
            omega
        · rw [w, List.getLast?_append_cons]
          rfl
      | resolve ok body =>
        cases ok with
        | true =>
          cases body with
          | some p => exact absurd (hso.trans rfl) (hf p)
          | none =>
            have hsh := generateRun_decodeFail s t hu hr ht
            have w : progressWrites (generateRun s ⟨some t, .resolve true none⟩) =
                ([0, stagePrepare, stageSend, stageSendComplete] ++
                  (tickTimesF t 500 t).map tickVal) ++
                [stageResponseReceived, stageParsing, 0] := by
              rw [hsh, progressWrites_append, progressWrites_append, progressWrites_preActs,
                progressWrites_tickActs]
              rfl
            refine ⟨afterRun_decodeFail s t hu hr ht, ?_, ⟨jsonErrorMessage, ?_⟩, ?_, ?_⟩
            · rw [hsh]
              exact List.mem_append.mpr (Or.inr (by simp))
            · rw [hsh]
              exact List.mem_append.mpr (Or.inr (by simp))
            · intro u v hm
              rw [hsh] at hm
              rcases List.mem_append.mp hm with hm2 | hm2
              · rcases List.mem_append.mp hm2 with hm3 | hm3
                · have h0 := preActs_time _ hm3
                  simp at h0
                  omega
                · have h0 := tickActs_time _ _ hm3
                  simp at h0
                  omega
              · simp at hm2
                omega
            · rw [w, List.getLast?_append_cons]
              rfl
        | false =>
          have hsh := generateRun_notOk s t body hu hr ht
          have w : progressWrites (generateRun s ⟨some t, .resolve false body⟩) =
              ([0, stagePrepare, stageSend, stageSendComplete] ++
                (tickTimesF t 500 t).map tickVal) ++
              [stageResponseReceived, 0] := by
            rw [hsh, progressWrites_append, progressWrites_append, progressWrites_preActs,
              progressWrites_tickActs]
            rfl
          refine ⟨afterRun_notOk s t body hu hr ht, ?_, ⟨"Failed to generate email", ?_⟩, ?_, ?_⟩
          · rw [hsh]
            exact List.mem_append.mpr (Or.inr (by simp))
          · rw [hsh]
            exact List.mem_append.mpr (Or.inr (by simp))
          · intro u v hm
            rw [hsh] at hm
            rcases List.mem_append.mp hm with hm2 | hm2
            · rcases List.mem_append.mp hm2 with hm3 | hm3
              · have h0 := preActs_time _ hm3
                simp at h0
                omega
              · have h0 := tickActs_time _ _ hm3
                simp at h0
                omega
            · simp at hm2
              omega
          · rw [w, List.getLast?_append_cons]
            rfl
  · have hn2 : FetchEnv.natural ⟨time, outcome⟩ = false := by
      cases h : FetchEnv.natural ⟨time, outcome⟩
      · rfl
      · exact absurd h hn
    have hst : FetchEnv.settleTime ⟨time, outcome⟩ = REQUEST_TIMEOUT := by
      unfold FetchEnv.settleTime
      unfold FetchEnv.natural at hn2
      cases time with
      | none => rfl
      | some u => simp at hn2; simp [if_neg (by omega : ¬ u < REQUEST_TIMEOUT)]
    have hsh := generateRun_timeout s ⟨time, outcome⟩ hu hr hn2
    have w : progressWrites (generateRun s ⟨time, outcome⟩) =
        (([0, stagePrepare, stageSend, stageSendComplete] ++
          (tickTimesF REQUEST_TIMEOUT 500 REQUEST_TIMEOUT).map tickVal) ++ []) ++ [0] := by
      rw [hsh, progressWrites_append, progressWrites_append, progressWrites_append,
        progressWrites_preActs, progressWrites_tickActs]
      rfl
    rw [hst]
    refine ⟨afterRun_timeout s ⟨time, outcome⟩ hu hr hn2, ?_, ⟨rejectMessage, ?_⟩, ?_, ?_⟩
    · rw [hsh]
      exact List.mem_append.mpr (Or.inr (by simp))
    · rw [hsh]
      exact List.mem_append.mpr (Or.inr (by simp))
    · intro u v hm
      rw [hsh] at hm
      rcases List.mem_append.mp hm with hm2 | hm2
      · rcases List.mem_append.mp hm2 with hm3 | hm3
        · rcases List.mem_append.mp hm3 with hm4 | hm4
          · have h0 := preActs_time _ hm4
            simp at h0
            omega
          · have h0 := tickActs_time _ _ hm4
            simp at h0
            omega
        · simp at hm3
      · simp at hm2
        omega
    · rw [w, List.getLast?_append_cons]
      rfl

/-- C3 witness: the cleanup conclusions evaluated for a request answered
with a non-2xx status at 900 ms. -/
theorem C3_failure_resets_witness :
    s0.jobUrl ≠ "" ∧ s0.resume ≠ none ∧
    (∀ p : Payload,
      (FetchEnv.mk (some 900) (.resolve false none)).settleOutcome ≠ .resolve true (some p)) ∧
    (afterRun s0 ⟨some 900, .resolve false none⟩ =
      { s0 with isGenerating := false, result := none, progress := 0 } ∧
     ((FetchEnv.mk (some 900) (.resolve false none)).settleTime, Act.clearProgressInterval) ∈
       generateRun s0 ⟨some 900, .resolve false none⟩ ∧
     (∃ d, ((FetchEnv.mk (some 900) (.resolve false none)).settleTime, failToast d) ∈
       generateRun s0 ⟨some 900, .resolve false none⟩) ∧
     (∀ (u : Nat) (v : ℚ), (u, Act.setProgress v) ∈ generateRun s0 ⟨some 900, .resolve false none⟩ →
       u ≤ (FetchEnv.mk (some 900) (.resolve false none)).settleTime) ∧
     (progressWrites (generateRun s0 ⟨some 900, .resolve false none⟩)).getLast? = some 0) :=
  ⟨by decide, by decide, fun p => by simp [FetchEnv.settleOutcome, FetchEnv.natural, REQUEST_TIMEOUT],
   C3_failure_resets s0 ⟨some 900, .resolve false none⟩ (by decide) (by decide)
     (fun p => by simp [FetchEnv.settleOutcome, FetchEnv.natural, REQUEST_TIMEOUT])⟩

/-- C9: a submit with an empty url or a missing document emits only the
missing-information toast and returns: no fetch is opened, no timer is
armed, and the hook state is completely unchanged. -/
theorem C9_missing_input (s : HookState) (env : FetchEnv)
    (h : s.jobUrl = "" ∨ s.resume = none) :
    generateRun s env =
      [(0, .toast (.err "Missing information" "Please provide both job URL and resume"))] ∧
    afterRun s env = s ∧
    (∀ a ∈ generateRun s env, a.2 ≠ Act.fetchStart ∧ a.2 ≠ Act.armAbortTimer ∧
      a.2 ≠ Act.armProgressInterval) := by
  have htr : generateRun s env =
      [(0, .toast (.err "Missing information" "Please provide both job URL and resume"))] := by
    unfold generateRun
    rw [if_pos h]
  refine ⟨htr, ?_, ?_⟩
  · rw [afterRun, htr]
    rfl
  · intro a ha
    rw [htr] at ha
    simp at ha
    rw [ha]
    refine ⟨by simp, by simp, by simp⟩

/-- C9 witness: the empty-url case evaluated on the initial hook state. -/
theorem C9_missing_input_witness :
    (initialHookState.jobUrl = "" ∨ initialHookState.resume = none) ∧
    (generateRun initialHookState envOk =
      [(0, .toast (.err "Missing information" "Please provide both job URL and resume"))] ∧
     afterRun initialHookState envOk = initialHookState ∧
     (∀ a ∈ generateRun initialHookState envOk, a.2 ≠ Act.fetchStart ∧
       a.2 ≠ Act.armAbortTimer ∧ a.2 ≠ Act.armProgressInterval)) :=
  ⟨Or.inl rfl, C9_missing_input initialHookState envOk (Or.inl rfl)⟩

/-- C10: when the fetch rejects at the transport level before the timeout,
the abort timer armed at send time is never cleared (clearTimeout runs only
on the resolve path), so the run still ends with the abort firing at the
timeout, after the request has long settled. -/
theorem C10_dangling_abort_timer (s : HookState) (t : Nat)
    (hu : s.jobUrl ≠ "") (hr : s.resume ≠ none) (ht : t < REQUEST_TIMEOUT) :
    (∀ a ∈ generateRun s ⟨some t, .reject⟩, a.2 ≠ Act.clearAbortTimer) ∧
    (0, Act.armAbortTimer) ∈ generateRun s ⟨some t, .reject⟩ ∧
    (generateRun s ⟨some t, .reject⟩).getLast? = some (REQUEST_TIMEOUT, .abortCalled) := by
  have hsh := generateRun_reject s t hu hr ht
  refine ⟨?_, ?_, ?_⟩
  · intro a ha
    rw [hsh] at ha
    rcases List.mem_append.mp ha with h2 | h2
    · rcases List.mem_append.mp h2 with h3 | h3
      · fin_cases h3 <;> simp
      · simp only [tickActs, tickTimes, List.mem_map] at h3
        rcases h3 with ⟨x, _, rfl⟩
        simp
    · fin_cases h2 <;> simp [failToast]
  · rw [hsh]
    exact List.mem_append.mpr (Or.inl (List.mem_append.mpr (Or.inl (by simp [preActs]))))
  · rw [hsh, List.getLast?_append_cons]
    rfl

/-- C10 witness: the dangling abort timer evaluated for a transport
rejection at 700 ms. -/
theorem C10_dangling_abort_timer_witness :
    s0.jobUrl ≠ "" ∧ s0.resume ≠ none ∧ 700 < REQUEST_TIMEOUT ∧
    ((∀ a ∈ generateRun s0 ⟨some 700, .reject⟩, a.2 ≠ Act.clearAbortTimer) ∧
     (0, Act.armAbortTimer) ∈ generateRun s0 ⟨some 700, .reject⟩ ∧
     (generateRun s0 ⟨some 700, .reject⟩).getLast? = some (REQUEST_TIMEOUT, .abortCalled)) :=
  ⟨by decide, by decide, by decide,
   C10_dangling_abort_timer s0 700 (by decide) (by decide) (by decide)⟩

/-- C8: a file whose MIME type is outside the two accepted types, or whose
size exceeds the 20 MiB cap, leaves the hook state (including the stored
document) unchanged and produces exactly one destructive notice; the
handler is a total function, so it never throws. -/
theorem C8_invalid_document (s : HookState) (f : FileRec)
    (h : f.type ∉ validTypes ∨ MAX_FILE_SIZE < f.size) :
    (handleFileChange s (some f)).1 = s ∧
    (∃ ti d, (handleFileChange s (some f)).2 = [Toast.err ti d]) := by
  simp only [handleFileChange]
  by_cases hc : validTypes.contains f.type
  · have hsz : MAX_FILE_SIZE < f.size := by
      rcases h with h | h
      · exact absurd (by simpa using hc) h
      · exact h
    rw [if_neg (by simpa using hc), if_pos hsz]
    exact ⟨rfl, "File too large", "Maximum file size is 20MB", rfl⟩
  · rw [if_pos (by simpa using hc)]
    exact ⟨rfl, "Invalid file type", "Please upload a PDF or DOCX file", rfl⟩

/-- C8 witness: a plain-text file is rejected with the state unchanged. -/
theorem C8_invalid_document_witness :
    (FileRec.mk "notes.txt" "text/plain" 10).type ∉ validTypes ∧
    ((handleFileChange s0 (some (FileRec.mk "notes.txt" "text/plain" 10))).1 = s0 ∧
     (∃ ti d, (handleFileChange s0 (some (FileRec.mk "notes.txt" "text/plain" 10))).2 =
       [Toast.err ti d])) :=
  ⟨by decide, C8_invalid_document s0 (FileRec.mk "notes.txt" "text/plain" 10)
    (Or.inl (by decide))⟩

/-- C1 counterexample: with a request in flight (fetch resolving
successfully at 400 ms), calling handleClear at 200 ms does reset the
result to the initial none, but the settlement of that same request then
writes the payload and the terminal progress values into the superseded
state: the settlement is observable, contradicting the claim that its
callbacks are no-ops. -/
theorem C1_clear_counterexample :
    (handleClear (applyActs s0 ((generateRun s0 envOk).filter (fun a => a.1 ≤ 200)))).result =
      none ∧
    (runWithClear s0 envOk 200).result = some payload0 ∧
    (runWithClear s0 envOk 200).progress = 100 := by
  refine ⟨rfl, by decide, by decide⟩

/-- C1 amended: handleClear always resets progress to 0 and the outcome,
url and document to their initial values; however the code has no
discard-stale-response guard, so the eventual settlement of a call that was
in flight when handleClear ran still applies its callbacks to the
superseded state (concretely, the request settling at 400 ms after a clear
at 200 ms leaves the payload stored and progress at 100). -/
theorem C1_clear_amended (s : HookState) :
    (handleClear s).progress = 0 ∧ (handleClear s).result = none ∧
    (handleClear s).jobUrl = "" ∧ (handleClear s).resume = none ∧
    (handleClear s).isGenerating = s.isGenerating ∧
    ((runWithClear s0 envOk 200).result = some payload0 ∧
     (runWithClear s0 envOk 200).progress = 100) :=
  ⟨rfl, rfl, rfl, rfl, rfl, by decide, by decide⟩

/-! ## Staged reveal (client/src/components/CanvasFlow.tsx)

The component state is the pair of booleans showAgents / showFinal plus the
two pending setTimeout handles of its two useEffect blocks.  React runs an
effect again exactly when its dependency changed, running the previous
cleanup (which clears the pending timer) first.  The model processes a
time-ordered list of prop updates; before each update, timers whose
scheduled time has been reached fire. -/

/-- The props CanvasFlow receives that drive the reveal logic. -/
structure FlowProps where
  isGenerating : Bool
  result : Option Payload
deriving DecidableEq

/-- Component state: the two reveal flags, the pending timers (scheduled
absolute firing times) and the previously seen props (effect dependency
comparison). -/
structure FlowState where
  showAgents : Bool
  showFinal : Bool
  agentsTimer : Option Nat
  finalTimer : Option Nat
  props : FlowProps
deriving DecidableEq

/-- State at mount, before any render: flags down, no timers, and the
dependencies unset (the component is only mounted while generating or with
a result, so the first real props differ and both effects run). -/
def initialFlowState : FlowState :=
  { showAgents := false, showFinal := false, agentsTimer := none, finalTimer := none,
    props := { isGenerating := false, result := none } }

/-- Fire every pending timer whose scheduled time has been reached by time
now.  The two timers are independent: one shows the agents, the other shows
the final card. -/
def fireTimersUpTo (now : Nat) (st : FlowState) : FlowState :=
  let st1 :=
    match st.agentsTimer with
    | some ta => if ta ≤ now then { st with showAgents := true, agentsTimer := none } else st
    | none => st
  match st1.finalTimer with
  | some tf => if tf ≤ now then { st1 with showFinal := true, finalTimer := none } else st1
  | none => st1

/-- First useEffect (dependency isGenerating): when the dependency changed,
the previous cleanup clears the pending agents timer; if a request is now
in flight, both flags drop and the 300 ms agents timer is armed. -/
def effectOne (now : Nat) (p : FlowProps) (st : FlowState) : FlowState :=
  if p.isGenerating ≠ st.props.isGenerating then
    if p.isGenerating then
      { st with showAgents := false, showFinal := false, agentsTimer := some (now + 300) }
    else { st with agentsTimer := none }
  else st

/-- Second useEffect (dependency result): when the dependency changed, the
previous cleanup clears the pending final timer; if a result with overall
status complete arrived, the 600 ms final timer is armed. -/
def effectTwo (now : Nat) (p : FlowProps) (st : FlowState) : FlowState :=
  if p.result ≠ st.props.result then
    match p.result with
    | some r =>
      if r.status = "complete" then { st with finalTimer := some (now + 600) }
      else { st with finalTimer := none }
    | none => { st with finalTimer := none }
  else st

/-- One render with new props at time now: the effects run in declaration
order, then the seen props are recorded.  Effect one does not write the
fields effect two reads. -/
def applyFlowProps (now : Nat) (p : FlowProps) (st : FlowState) : FlowState :=
  { effectTwo now p (effectOne now p st) with props := p }

/-- Process a time-ordered list of prop updates from a state. -/
def runFlow (st : FlowState) : List (Nat × FlowProps) → FlowState
  | [] => st
  | (now, p) :: rest => runFlow (applyFlowProps now p (fireTimersUpTo now st)) rest

/-- The component state observed at the horizon after all events were
processed and every timer due by the horizon fired. -/
def flowAt (events : List (Nat × FlowProps)) (horizon : Nat) : FlowState :=
  fireTimersUpTo horizon (runFlow initialFlowState events)

/-- Invariant used for C5: while no complete result has ever been
delivered, the final card is hidden and no final timer is pending. -/
def FinalHidden (st : FlowState) : Prop :=
  st.showFinal = false ∧ st.finalTimer = none

theorem fireTimersUpTo_finalHidden (now : Nat) (st : FlowState)
    (h : FinalHidden st) : FinalHidden (fireTimersUpTo now st) := by
  obtain ⟨h1, h2⟩ := h
  unfold fireTimersUpTo
  cases hag : st.agentsTimer with
  | none =>
    simp only [hag, h2]
    exact ⟨h1, h2⟩
  | some ta =>
    by_cases hta : ta ≤ now
    · simp only [hag, if_pos hta, h2]
      exact ⟨h1, rfl⟩
    · simp only [hag, if_neg hta, h2]
      exact ⟨h1, h2⟩

theorem effectOne_showFinal_false (now : Nat) (p : FlowProps) (st : FlowState)
    (h : st.showFinal = false) : (effectOne now p st).showFinal = false := by
  unfold effectOne
  split
  · split
    · rfl
    · exact h
  · exact h

theorem effectOne_finalTimer (now : Nat) (p : FlowProps) (st : FlowState) :
    (effectOne now p st).finalTimer = st.finalTimer := by
  unfold effectOne
  split
  · split
    · rfl
    · rfl
  · rfl

theorem effectTwo_finalHidden (now : Nat) (p : FlowProps) (st : FlowState)
    (h1 : st.showFinal = false)
    (hp : ∀ r : Payload, p.result = some r → r.status ≠ "complete")
    (h2 : st.finalTimer = none) :
    FinalHidden (effectTwo now p st) := by
  unfold effectTwo
  split
  · cases hpr : p.result with
    | none => exact ⟨h1, rfl⟩
    | some r =>
      simp only [hpr]
      rw [if_neg (hp r hpr)]
      exact ⟨h1, rfl⟩
  · exact ⟨h1, h2⟩

theorem applyFlowProps_finalHidden (now : Nat) (p : FlowProps) (st : FlowState)
    (h : FinalHidden st)
    (hp : ∀ r : Payload, p.result = some r → r.status ≠ "complete") :
    FinalHidden (applyFlowProps now p st) := by
  have he := effectTwo_finalHidden now p (effectOne now p st)
    (effectOne_showFinal_false now p st h.1) hp
    ((effectOne_finalTimer now p st).trans h.2)
  exact ⟨he.1, he.2⟩

theorem runFlow_finalHidden (events : List (Nat × FlowProps)) :
    ∀ st : FlowState, FinalHidden st →
      (∀ e ∈ events, ∀ r : Payload, e.2.result = some r → r.status ≠ "complete") →
      FinalHidden (runFlow st events) := by
  induction events with
  | nil => intro st h _; exact h
  | cons e rest ih =>
    intro st h hev
    obtain ⟨now, p⟩ := e
    refine ih _ ?_ ?_
    · refine applyFlowProps_finalHidden now p _ (fireTimersUpTo_finalHidden now st h) ?_
      intro r hr
      exact hev (now, p) (List.mem_cons_self _ _) r hr
    · intro e2 he2 r hr
      exact hev e2 (List.mem_cons.mpr (Or.inr he2)) r hr

/-- A concrete failed payload (backend-level failure) for witnesses. -/
def payloadFailed : Payload :=
  { request_id := "req-2", status := "failed", agent_drafts := [],
    aggregation := { final_email := "", reasoning := "" } }

/-- C5: the final card is revealed only for a complete result: along any
prop history that never delivers a complete result the final card stays
hidden; a complete result delivered at 5000 ms reveals it exactly at the
600 ms delay (hidden at 5599, timer armed for 5600, shown at 5600); and a
second request started at 5300 ms, before that pending transition fires,
cancels it, so the final card stays hidden at every later time. -/
theorem C5_staged_reveal (events : List (Nat × FlowProps)) (horizon : Nat) (r : Payload)
    (ha : ∀ e ∈ events, ∀ q : Payload, e.2.result = some q → q.status ≠ "complete")
    (hst : r.status = "complete") :
    (flowAt events horizon).showFinal = false ∧
    (flowAt [(0, ⟨true, none⟩), (5000, ⟨false, some r⟩)] 5599).showFinal = false ∧
    (runFlow initialFlowState [(0, ⟨true, none⟩), (5000, ⟨false, some r⟩)]).finalTimer =
      some 5600 ∧
    (flowAt [(0, ⟨true, none⟩), (5000, ⟨false, some r⟩)] 5600).showFinal = true ∧
    (∀ h2 : Nat,
      (flowAt [(0, ⟨true, none⟩), (5000, ⟨false, some r⟩), (5300, ⟨true, none⟩)] h2).showFinal =
        false) := by
  have hB : runFlow initialFlowState [(0, ⟨true, none⟩), (5000, ⟨false, some r⟩)] =
      { showAgents := true, showFinal := false, agentsTimer := none,
        finalTimer := some 5600, props := ⟨false, some r⟩ } := by
    simp [runFlow, applyFlowProps, effectOne, effectTwo, fireTimersUpTo, initialFlowState, hst]
  have hC : runFlow initialFlowState
      [(0, ⟨true, none⟩), (5000, ⟨false, some r⟩), (5300, ⟨true, none⟩)] =
      { showAgents := false, showFinal := false, agentsTimer := some 5600,
        finalTimer := none, props := ⟨true, none⟩ } := by
    simp [runFlow, applyFlowProps, effectOne, effectTwo, fireTimersUpTo, initialFlowState, hst]
  refine ⟨?_, ?_, ?_, ?_, ?_⟩
  · exact (fireTimersUpTo_finalHidden horizon _
      (runFlow_finalHidden events initialFlowState ⟨rfl, rfl⟩ ha)).1
  · rw [flowAt, hB]
    rfl
  · rw [hB]
  · rw [flowAt, hB]
    rfl
  · intro h2
    rw [flowAt, hC]
    unfold fireTimersUpTo
    by_cases h56 : 5600 ≤ h2 <;> simp [h56]

/-- C5 witness: the reveal properties evaluated with a concrete complete
payload and a concrete failing history. -/
theorem C5_staged_reveal_witness :
    (∀ e ∈ [((0 : Nat), FlowProps.mk true none), (1000, FlowProps.mk false (some payloadFailed))],
      ∀ q : Payload, e.2.result = some q → q.status ≠ "complete") ∧
    payload0.status = "complete" ∧
    ((flowAt [((0 : Nat), FlowProps.mk true none),
        (1000, FlowProps.mk false (some payloadFailed))] 10000).showFinal = false ∧
     (flowAt [(0, ⟨true, none⟩), (5000, ⟨false, some payload0⟩)] 5599).showFinal = false ∧
     (runFlow initialFlowState
        [(0, ⟨true, none⟩), (5000, ⟨false, some payload0⟩)]).finalTimer = some 5600 ∧
     (flowAt [(0, ⟨true, none⟩), (5000, ⟨false, some payload0⟩)] 5600).showFinal = true ∧
     (∀ h2 : Nat,
       (flowAt [(0, ⟨true, none⟩), (5000, ⟨false, some payload0⟩),
         (5300, ⟨true, none⟩)] h2).showFinal = false)) := by
  refine ⟨?_, rfl, ?_⟩
  · intro e he q hq
    fin_cases he
    · exact Option.noConfusion hq
    · injection hq with h
      subst h
      decide
  · exact C5_staged_reveal
      [((0 : Nat), FlowProps.mk true none), (1000, FlowProps.mk false (some payloadFailed))]
      10000 payload0
      (by
        intro e he q hq
        fin_cases he
        · exact Option.noConfusion hq
        · injection hq with h
          subst h
          decide) rfl

/-- C7: removeThinkTags removes every matched think-tag span, lazily,
case-insensitively, across multiple occurrences and multi-line spans, and
trims the result; an input with no opening tag is returned trimmed and
otherwise unchanged. -/
theorem C7_removeThinkTags_spec :
    (∀ s : String, containsOpenTag s.toList = false →
        removeThinkTags s = String.mk (jsTrim s.toList)) ∧
    removeThinkTags "a<think>x</think>b<think>y</think>c" = "abc" ∧
    removeThinkTags " <THINK>line1\nline2</ThInK> hi <think>z</think>" = "hi" ∧
    removeThinkTags "  no tags here  " = "no tags here" := by
  refine ⟨?_, by rfl, by rfl, by rfl⟩
  intro s h
  unfold removeThinkTags
  rw [removeCoreF_of_not_contains _ _ h]

/-- C7 witness: the universally quantified trimming part evaluated on a
concrete tag-free input. -/
theorem C7_removeThinkTags_spec_witness :
    containsOpenTag " hello\nworld ".toList = false ∧
    removeThinkTags " hello\nworld " = String.mk (jsTrim " hello\nworld ".toList) :=
  ⟨by rfl, C7_removeThinkTags_spec.1 " hello\nworld " (by rfl)⟩

/-- C4: parseJsonWrapper never raises: it is a total function, a decode
failure is the normal catch branch returning the fence-stripped text with
parsed set to false, and every result with parsed = false has exactly that
fallback shape. -/
theorem C4_parseJsonWrapper_never_raises :
    (∀ s : String, jsonParse (stripMarkdownCodeBlocks s) = none →
        parseJsonWrapper s = ⟨some (.str (stripMarkdownCodeBlocks s)), none, false⟩) ∧
    (∀ s : String, (parseJsonWrapper s).parsed = false →
        parseJsonWrapper s = ⟨some (.str (stripMarkdownCodeBlocks s)), none, false⟩) ∧
    parseJsonWrapper "this is not json" =
      ⟨some (.str "this is not json"), none, false⟩ := by
  refine ⟨?_, ?_, by rfl⟩
  · intro s h
    unfold parseJsonWrapper
    rw [h]
  · intro s h
    cases hj : jsonParse (stripMarkdownCodeBlocks s) with
    | none =>
      unfold parseJsonWrapper
      rw [hj]
    | some v =>
      unfold parseJsonWrapper at h ⊢
      rw [hj] at h ⊢
      cases v with
      | null => rfl
      | jbool b => exact Bool.noConfusion h
      | num raw => exact Bool.noConfusion h
      | str s2 => exact Bool.noConfusion h
      | arr elems => exact Bool.noConfusion h
      | obj fields => exact Bool.noConfusion h

/-- C4 witness: the decode-failure branch evaluated at a concrete
unparsable input. -/
theorem C4_parseJsonWrapper_never_raises_witness :
    jsonParse (stripMarkdownCodeBlocks "plain text, no fences") = none ∧
    parseJsonWrapper "plain text, no fences" =
      ⟨some (.str (stripMarkdownCodeBlocks "plain text, no fences")), none, false⟩ :=
  ⟨by rfl, C4_parseJsonWrapper_never_raises.1 "plain text, no fences" (by rfl)⟩

/-- C6: parseJsonWrapper strips the fences and then either extracts the
final_email and reasoning properties of a decoded object with parsed = true,
or, when decoding fails, returns the fence-stripped text with
parsed = false; on the fenced object of the spec example it yields the
email Hi, the reasoning why, and parsed = true. -/
theorem C6_parseJsonWrapper_shape :
    (∀ (s : String) (fields : List (String × Json)),
        jsonParse (stripMarkdownCodeBlocks s) = some (.obj fields) →
        parseJsonWrapper s =
          ⟨getField (.obj fields) "final_email", getField (.obj fields) "reasoning", true⟩) ∧
    (∀ s : String, jsonParse (stripMarkdownCodeBlocks s) = none →
        parseJsonWrapper s = ⟨some (.str (stripMarkdownCodeBlocks s)), none, false⟩) ∧
    parseJsonWrapper "```json\n\x7b\"final_email\":\"Hi\",\"reasoning\":\"why\"\x7d\n```" =
      ⟨some (.str "Hi"), some (.str "why"), true⟩ := by
  refine ⟨?_, ?_, by rfl⟩
  · intro s fields h
    unfold parseJsonWrapper
    rw [h]
  · intro s h
    unfold parseJsonWrapper
    rw [h]

/-- C6 witness: the object branch evaluated at the concrete spec example. -/
theorem C6_parseJsonWrapper_shape_witness :
    jsonParse (stripMarkdownCodeBlocks
        "```json\n\x7b\"final_email\":\"Hi\",\"reasoning\":\"why\"\x7d\n```") =
      some (.obj [("final_email", .str "Hi"), ("reasoning", .str "why")]) ∧
    parseJsonWrapper "```json\n\x7b\"final_email\":\"Hi\",\"reasoning\":\"why\"\x7d\n```" =
      ⟨getField (.obj [("final_email", .str "Hi"), ("reasoning", .str "why")]) "final_email",
       getField (.obj [("final_email", .str "Hi"), ("reasoning", .str "why")]) "reasoning",
       true⟩ :=
  ⟨by rfl,
   C6_parseJsonWrapper_shape.1
     "```json\n\x7b\"final_email\":\"Hi\",\"reasoning\":\"why\"\x7d\n```"
     [("final_email", .str "Hi"), ("reasoning", .str "why")] (by rfl)⟩

end ColdEmail
